import Mathlib

/-!
Shallow embedding of the core of `usa-spending-mcp-server`:
the request validation (`TimePeriod` in `models/common_models.py`),
the paginated search fetcher (`search_spending_by_award` in
`tools/award_spending.py`) and the bounded concurrent detail fetcher
(`get_award_details` in the same file), together with theorems settling
the frozen claims about them.

The remote HTTP API is modelled as an oracle function: for the search
fetcher a function from page number to outcome (the request body sent by the
loop differs from the original request only in `pagination.page`, so the
page number determines the call), and for the detail fetcher a function from
award id to outcome.  A raised exception out of `client.post` / `client.get`
is modelled as the `Except.error` branch of the oracle.
-/

/-! ### Date parsing (`datetime.strptime(v, "%Y-%m-%d")`)

CPython's `strptime` compiles `"%Y-%m-%d"` to the regular expression
`(?P<Y>\d\d\d\d)-(?P<m>1[0-2]|0[1-9]|[1-9])-(?P<d>3[01]|[12]\d|0[1-9]|[1-9])`
matched against the whole string, and then builds a `datetime`, which
additionally requires `1 <= year` and the day to exist in the given month.
Note the year must be exactly four digits while month and day may be one or
two digits (zero padding is not required by `%m`/`%d`). -/

/-- Split a character list at every `'-'` (the behaviour of Python's
`"-".split` / of matching the literal dashes of the format). -/
def splitDash : List Char → List (List Char)
  | [] => [[]]
  | c :: cs =>
    if c = '-' then [] :: splitDash cs
    else
      match splitDash cs with
      | [] => [[c]]
      | p :: ps => (c :: p) :: ps

def allDigits (l : List Char) : Bool :=
  l.all Char.isDigit

def digitsToNat (l : List Char) : Nat :=
  l.foldl (fun n c => n * 10 + (c.toNat - 48)) 0

/-- The `%m` alternatives `1[0-2]|0[1-9]|[1-9]`: a one-digit value 1..9 or a
two-digit value 01..12. -/
def monthForm (l : List Char) : Bool :=
  allDigits l &&
    ((l.length == 1 && 1 ≤ digitsToNat l) ||
     (l.length == 2 && 1 ≤ digitsToNat l && digitsToNat l ≤ 12))

/-- The `%d` alternatives `3[01]|[12]\d|0[1-9]|[1-9]`: a one-digit value 1..9
or a two-digit value 01..31. -/
def dayForm (l : List Char) : Bool :=
  allDigits l &&
    ((l.length == 1 && 1 ≤ digitsToNat l) ||
     (l.length == 2 && 1 ≤ digitsToNat l && digitsToNat l ≤ 31))

def isLeapYear (y : Nat) : Bool :=
  y % 4 == 0 && (y % 100 != 0 || y % 400 == 0)

def daysInMonth (y m : Nat) : Nat :=
  if m == 2 then (if isLeapYear y then 29 else 28)
  else if m == 4 || m == 6 || m == 9 || m == 11 then 30
  else 31

/-- Parse result: `strptimeYMD s` is `some (y, m, d)` exactly when
`datetime.strptime(s, "%Y-%m-%d")` succeeds on `s` and parses it to that
date.  Splitting on `"-"` into exactly three all-digit components is
equivalent to the compiled regular expression above, since every branch of
the month and day groups is purely numeric. -/
def strptimeYMD (s : String) : Option (Nat × Nat × Nat) :=
  match splitDash s.toList with
  | [ys, ms, ds] =>
    if (ys.length == 4 && allDigits ys) && monthForm ms && dayForm ds then
      let y := digitsToNat ys
      let m := digitsToNat ms
      let d := digitsToNat ds
      if 1 ≤ y && d ≤ daysInMonth y m then some (y, m, d) else none
    else none
  | _ => none

/-- Strict-date order used by `validate_date_range`: `datetime` comparison is
lexicographic on (year, month, day). -/
def ymdLt (a b : Nat × Nat × Nat) : Bool :=
  a.1 < b.1 || (a.1 == b.1 && (a.2.1 < b.2.1 || (a.2.1 == b.2.1 && a.2.2 < b.2.2)))

/-- Field validator `validate_date_format` of `TimePeriod`: succeeds iff `strptime` does. -/
def validate_date_format (v : String) : Bool :=
  (strptimeYMD v).isSome

structure TimePeriod where
  start_date : String
  end_date : String
  deriving Repr, DecidableEq

/-- Pydantic construction of `TimePeriod`: the `validate_date_format` field
validator runs on both fields, then the `validate_date_range` model
validator re-parses both dates and rejects when `start_dt > end_dt`. -/
def TimePeriod.make (s e : String) : Except String TimePeriod :=
  if ¬ validate_date_format s ∨ ¬ validate_date_format e then
    .error "Date must be in YYYY-MM-DD format"
  else
    match strptimeYMD s, strptimeYMD e with
    | some a, some b =>
      if ymdLt b a then .error "start_date must be before end_date"
      else .ok ⟨s, e⟩
    | _, _ => .error "Date must be in YYYY-MM-DD format"

def exceptOk {ε α : Type} : Except ε α → Bool
  | .ok _ => true
  | .error _ => false

/-- Spec-level reading of "`YYYY-MM-DD` form": four digits, a dash, two
digits, a dash, two digits.  This definition follows the spec's words and is
used only to compare the spec's format requirement with the code's
behaviour. -/
def isStrictYYYYMMDD (s : String) : Bool :=
  match s.toList with
  | [a, b, c, d, h1, e, f, h2, g, k] =>
    a.isDigit && b.isDigit && c.isDigit && d.isDigit && h1 == '-' &&
      e.isDigit && f.isDigit && h2 == '-' && g.isDigit && k.isDigit
  | _ => false

/-! ### Paginated search fetcher (`search_spending_by_award`)

The upstream is a function `server : Nat → Except String ApiResponse` from
page number to response; `.error e` models `client.post` raising with
message `e`.  A response is modelled by the view the code takes of the JSON
body: `response.get("results", [])` and
`response.get("page_metadata", {}).get("hasNext", False)`, i.e. absent keys
already collapsed to their defaults. -/

structure PageMetadata where
  hasNext : Bool
  deriving Repr, DecidableEq

structure ApiResponse where
  results : List Nat
  page_metadata : PageMetadata
  deriving Repr, DecidableEq

/-- The keys put into `page_metadata` by the final `.update({...})`, plus the
first page's own `hasNext` key, which the dict update leaves in place. -/
structure EnrichedMetadata where
  hasNext : Bool
  total_results_fetched : Nat
  pages_fetched : Nat
  requested_max_pages : Int
  has_more_pages : Bool
  fetch_completed : Bool
  deriving Repr, DecidableEq

inductive SearchResult where
  | errorString (msg : String)
  | raw (response : ApiResponse)
  | enriched (results : List Nat) (page_metadata : EnrichedMetadata)
  deriving Repr, DecidableEq

def SearchResult.enrichedMeta : SearchResult → Option EnrichedMetadata
  | .enriched _ m => some m
  | _ => none

def SearchResult.enrichedResults : SearchResult → Option (List Nat)
  | .enriched r _ => some r
  | _ => none

structure LoopOut where
  all_results : List Nat
  pages_fetched : Nat
  has_next : Bool
  calls : List Nat
  deriving Repr, DecidableEq

/-- The `while has_next and pages_fetched < pages_to_fetch` loop of
`search_spending_by_award`.  `calls` accumulates the page numbers of the
requests issued so far (for call accounting).  The loop body increments
`current_page` and `pages_fetched` *before* attempting the call; on a raised
call it breaks keeping the previous `has_next`; on a page with zero results
it breaks after updating `has_next` from that page.

`fuel` is a structural-recursion counter only: the loop's real exit
condition is the guard, and the caller passes `fuel = pages_to_fetch.toNat`,
which is at least the number of iterations the guard permits (each iteration
increases `pages_fetched`, which starts at 1), so the `fuel = 0` branch is
never the one that stops the loop. -/
def pageLoop (server : Nat → Except String ApiResponse) (pages_to_fetch : Int) :
    Nat → List Nat → Nat → Nat → Bool → List Nat → LoopOut
  | 0, all_results, pages_fetched, _, has_next, calls =>
    ⟨all_results, pages_fetched, has_next, calls⟩
  | fuel + 1, all_results, pages_fetched, current_page, has_next, calls =>
    if has_next = true ∧ (pages_fetched : Int) < pages_to_fetch then
      match server (current_page + 1) with
      | .error _ =>
        ⟨all_results, pages_fetched + 1, has_next, calls ++ [current_page + 1]⟩
      | .ok next_response =>
        if next_response.results.isEmpty then
          ⟨all_results ++ next_response.results, pages_fetched + 1,
            next_response.page_metadata.hasNext, calls ++ [current_page + 1]⟩
        else
          pageLoop server pages_to_fetch fuel
            (all_results ++ next_response.results) (pages_fetched + 1)
            (current_page + 1) next_response.page_metadata.hasNext
            (calls ++ [current_page + 1])
    else ⟨all_results, pages_fetched, has_next, calls⟩

/-- Tool `search_spending_by_award` with the HTTP call abstracted to `server`.
`startPage` is `award_search_request.pagination.page or 1` (the model keeps
it abstract since `page ≥ 1` is validated).  The second component of the
result is the list of page numbers actually requested, in order. -/
def search_spending_by_award (server : Nat → Except String ApiResponse)
    (startPage : Nat) (pages_to_fetch : Int) : SearchResult × List Nat :=
  match server startPage with
  | .error e => (.errorString ("Error searching spending by award: " ++ e), [startPage])
  | .ok response =>
    if pages_to_fetch ≤ 1 then (.raw response, [startPage])
    else
      let out := pageLoop server pages_to_fetch pages_to_fetch.toNat
        response.results 1 startPage response.page_metadata.hasNext [startPage]
      (.enriched out.all_results
        { hasNext := response.page_metadata.hasNext
          total_results_fetched := out.all_results.length
          pages_fetched := out.pages_fetched
          requested_max_pages := pages_to_fetch
          has_more_pages := out.has_next
          fetch_completed := !out.has_next || decide (pages_to_fetch ≤ (out.pages_fetched : Int)) },
        out.calls)

/-- A server whose every page succeeds with one result and `hasNext=true`. -/
def alwaysMoreServer : Nat → Except String ApiResponse :=
  fun _ => .ok ⟨[0], ⟨true⟩⟩

/-- A server whose first page succeeds (two results, `hasNext=true`) and
whose every later page raises. -/
def failAtTwoServer : Nat → Except String ApiResponse :=
  fun p => if p = 1 then .ok ⟨[10, 20], ⟨true⟩⟩ else .error "boom"

/-- A server whose page 2 succeeds with zero results but still reports
`hasNext=true`; all other pages return one result and `hasNext=true`. -/
def emptyPage2Server : Nat → Except String ApiResponse :=
  fun p => if p = 2 then .ok ⟨[], ⟨true⟩⟩ else .ok ⟨[7], ⟨true⟩⟩

/-- A server that always raises. -/
def failFirstServer : Nat → Except String ApiResponse :=
  fun _ => .error "connection refused"

/-! ### Bounded concurrent detail fetcher (`get_award_details`)

The network is modelled as `net : String → FetchOutcome`, giving each award
id's fetch outcome (`client.get(f"awards/{aid}/")` succeeding with a payload
or raising with a message).  The semaphore only schedules the tasks; the
collected values are those of `asyncio.gather`, which returns the task
results in the order of the input list.  The effective semaphore limit is
recorded in the function's second result component so claims about it can be
stated; it is `none` on the empty-input short-circuit, where no semaphore is
created. -/

inductive FetchOutcome where
  | success (data : Nat)
  | failure (error : String)
  deriving Repr, DecidableEq

def FetchOutcome.isSuccess : FetchOutcome → Bool
  | .success _ => true
  | .failure _ => false

/-- The per-task dict `{"award_id": aid, "success": True, "data": data}` or
`{"award_id": aid, "success": False, "error": str(e)}`. -/
inductive DetailResult where
  | ok (award_id : String) (data : Nat)
  | err (award_id : String) (error : String)
  deriving Repr, DecidableEq

def fetch_award (net : String → FetchOutcome) (aid : String) : DetailResult :=
  match net aid with
  | .success data => .ok aid data
  | .failure e => .err aid e

/-- Python dict assignment `d[k] = v` on a dict modelled as an insertion-order
association list: overwrite in place when the key exists, else append. -/
def dictInsert {V : Type} (d : List (String × V)) (k : String) (v : V) :
    List (String × V) :=
  if d.any (fun q => decide (q.1 = k)) then
    d.map (fun q => if q.1 = k then (k, v) else q)
  else d ++ [(k, v)]

def dlookup {V : Type} (k : String) : List (String × V) → Option V
  | [] => none
  | (k', v) :: d => if k' = k then some v else dlookup k d

def dkeys {V : Type} (d : List (String × V)) : List String :=
  d.map Prod.fst

/-- The collection `for result in results: ...` partitioning the gathered
task dicts into `success_results` and `error_results`. -/
def buildGo : List DetailResult →
    List (String × Nat) × List (String × String) →
    List (String × Nat) × List (String × String)
  | [], acc => acc
  | .ok a d :: rs, (sd, ed) => buildGo rs (dictInsert sd a d, ed)
  | .err a e :: rs, (sd, ed) => buildGo rs (sd, dictInsert ed a e)

def build_response (rs : List DetailResult) :
    List (String × Nat) × List (String × String) :=
  buildGo rs ([], [])

structure DetailResponse where
  success_count : Nat
  error_count : Nat
  results : List (String × Nat)
  errors : Option (List (String × String))
  deriving Repr, DecidableEq

inductive DetailsResult where
  | errorString (msg : String)
  | response (r : DetailResponse)
  deriving Repr, DecidableEq

def DetailsResult.responseOf : DetailsResult → Option DetailResponse
  | .response r => some r
  | _ => none

/-- Tool `get_award_details` with the HTTP calls abstracted to `net`.  The second
component records the initial value given to `asyncio.Semaphore` (the
effective concurrency bound of the fan-out). -/
def get_award_details (net : String → FetchOutcome) (award_ids : List String)
    (max_concurrent : Int) : DetailsResult × Option Int :=
  if award_ids.isEmpty then
    (.errorString "Error: No valid award IDs provided", none)
  else
    let mc := min (min max_concurrent 10) (award_ids.length : Int)
    let results := award_ids.map (fetch_award net)
    let dicts := build_response results
    let success_results := dicts.1
    let error_results := dicts.2
    (.response
      { success_count := success_results.length
        error_count := error_results.length
        results := success_results
        errors := if error_results.isEmpty then none else some error_results },
      some mc)

/-- A network on which every award id succeeds. -/
def netAllOk : String → FetchOutcome :=
  fun _ => .success 7

/-- A network on which exactly the id `"b"` fails. -/
def netOneBad : String → FetchOutcome :=
  fun a => if a = "b" then .failure "oops" else .success 1

def ids3 : List String := ["a", "b", "c"]

def ids15 : List String := List.replicate 15 "x"

def idsDup : List String := ["a", "a"]

/-! ### Page-request derivation (`model_copy` + `pagination.page` assignment)

Pydantic's `model_copy()` without `deep=True` copies the model's field
values, so the nested `BasePagination` model is shared by reference between
the original request and the copy.  To make that observable the pagination
objects live in a heap `PagHeap` indexed by references, the request holds a
reference, and the assignment `next_request.pagination.page = current_page`
is a heap update.  `filters`, `fields`, `sort` and `subawards` are also
shared by the shallow copy but are never mutated anywhere in the loop, so
they are kept as plain values. -/

structure BasePaginationV where
  page : Int
  limit : Int
  orderDesc : Bool
  deriving Repr, DecidableEq

structure AwardSearchFiltersV where
  time_period : List TimePeriod
  award_ids : Option (List String)
  keywords : Option (List String)
  deriving Repr, DecidableEq

structure AwardSearchRequestRef where
  filters : AwardSearchFiltersV
  fields : List String
  sort : Option String
  subawards : Bool
  pagination : Nat
  deriving Repr, DecidableEq

def PagHeap : Type := Nat → BasePaginationV

/-- Shallow `model_copy()`: the new model object has the same field values,
including the same reference to the `BasePagination` object. -/
def model_copy (r : AwardSearchRequestRef) : AwardSearchRequestRef := r

/-- The attribute assignment `<pagination object ref>.page = n`. -/
def setPaginationPage (h : PagHeap) (ref : Nat) (n : Int) : PagHeap :=
  fun i => if i = ref then { h ref with page := n } else h i

/-- Lines 107-108 of `tools/award_spending.py`:
`next_request = award_search_request.model_copy()` followed by
`next_request.pagination.page = current_page`.  Returns the derived request
and the post-assignment heap. -/
def next_page_request (h : PagHeap) (r : AwardSearchRequestRef) (current_page : Int) :
    AwardSearchRequestRef × PagHeap :=
  let next_request := model_copy r
  (next_request, setPaginationPage h next_request.pagination current_page)

/-- The value-level serialization `model_dump()` of a request under a heap:
the nested pagination object flattened to its fields. -/
structure RequestDump where
  filters : AwardSearchFiltersV
  fields : List String
  sort : Option String
  subawards : Bool
  page : Int
  limit : Int
  orderDesc : Bool
  deriving Repr, DecidableEq

def model_dump (h : PagHeap) (r : AwardSearchRequestRef) : RequestDump :=
  { filters := r.filters
    fields := r.fields
    sort := r.sort
    subawards := r.subawards
    page := (h r.pagination).page
    limit := (h r.pagination).limit
    orderDesc := (h r.pagination).orderDesc }

/-- A concrete one-object heap for the frame counterexample. -/
def heapEx : PagHeap :=
  fun _ => { page := 1, limit := 100, orderDesc := true }

/-- A concrete request pointing at pagination object `0`. -/
def requestEx : AwardSearchRequestRef :=
  { filters := { time_period := [⟨"2024-01-01", "2024-12-31"⟩]
                 award_ids := none
                 keywords := some ["cybersecurity"] }
    fields := ["Award ID", "Recipient Name"]
    sort := none
    subawards := false
    pagination := 0 }

/-! ### Helper lemmas: association-list dictionaries -/

theorem dkeys_length {V : Type} (d : List (String × V)) :
    (dkeys d).length = d.length :=
  List.length_map d Prod.fst

theorem mem_dkeys {V : Type} {d : List (String × V)} {a : String} :
    a ∈ dkeys d ↔ ∃ v, (a, v) ∈ d := by
  constructor
  · intro h
    rcases List.mem_map.mp h with ⟨q, hq, hfst⟩
    refine ⟨q.2, ?_⟩
    rw [← hfst]
    exact hq
  · rintro ⟨v, hv⟩
    exact List.mem_map.mpr ⟨(a, v), hv, rfl⟩

theorem dkeys_dictInsert {V : Type} (d : List (String × V)) (k : String) (v : V) :
    dkeys (dictInsert d k v) =
      if k ∈ dkeys d then dkeys d else dkeys d ++ [k] := by
  unfold dictInsert
  have hany : (d.any fun q => decide (q.1 = k)) = true ↔ k ∈ dkeys d := by
    rw [List.any_eq_true]
    constructor
    · rintro ⟨q, hq, hqk⟩
      exact List.mem_map.mpr ⟨q, hq, of_decide_eq_true hqk⟩
    · intro h
      rcases List.mem_map.mp h with ⟨q, hq, hfst⟩
      exact ⟨q, hq, decide_eq_true hfst⟩
  by_cases hmem : k ∈ dkeys d
  · rw [if_pos (hany.mpr hmem), if_pos hmem]
    unfold dkeys
    rw [List.map_map]
    apply List.map_congr_left
    intro q _
    by_cases hq : q.1 = k
    · simp [hq]
    · simp [hq]
  · rw [if_neg (fun h => hmem (hany.mp h)), if_neg hmem]
    unfold dkeys
    rw [List.map_append]
    rfl

theorem mem_dkeys_dictInsert {V : Type} {d : List (String × V)} {k a : String} {v : V} :
    a ∈ dkeys (dictInsert d k v) ↔ a ∈ dkeys d ∨ a = k := by
  rw [dkeys_dictInsert]
  by_cases hmem : k ∈ dkeys d
  · rw [if_pos hmem]
    constructor
    · exact Or.inl
    · rintro (h | rfl)
      · exact h
      · exact hmem
  · rw [if_neg hmem]
    simp

theorem nodup_dkeys_dictInsert {V : Type} {d : List (String × V)} (k : String) (v : V)
    (h : (dkeys d).Nodup) : (dkeys (dictInsert d k v)).Nodup := by
  rw [dkeys_dictInsert]
  by_cases hmem : k ∈ dkeys d
  · rwa [if_pos hmem]
  · rw [if_neg hmem]
    simp [List.nodup_append, h, hmem]

theorem length_dictInsert {V : Type} (d : List (String × V)) (k : String) (v : V) :
    (dictInsert d k v).length = if k ∈ dkeys d then d.length else d.length + 1 := by
  have h1 := dkeys_length (dictInsert d k v)
  have h2 := dkeys_length d
  rw [dkeys_dictInsert] at h1
  by_cases hmem : k ∈ dkeys d
  · rw [if_pos hmem] at h1
    rw [if_pos hmem, ← h2, ← h1]
  · rw [if_neg hmem] at h1
    rw [if_neg hmem, ← h2, ← h1, List.length_append]
    rfl

theorem mem_dictInsert {V : Type} {d : List (String × V)} {k : String} {v : V} {q : String × V}
    (h : q ∈ dictInsert d k v) : q ∈ d ∨ q = (k, v) := by
  unfold dictInsert at h
  by_cases hany : (d.any fun q => decide (q.1 = k)) = true
  · rw [if_pos hany] at h
    rcases List.mem_map.mp h with ⟨q0, hq0, heq⟩
    by_cases hq : q0.1 = k
    · rw [if_pos hq] at heq
      exact Or.inr heq.symm
    · rw [if_neg hq] at heq
      exact Or.inl (heq ▸ hq0)
  · rw [if_neg hany] at h
    rcases List.mem_append.mp h with h | h
    · exact Or.inl h
    · exact Or.inr (List.mem_singleton.mp h)

theorem dlookup_mem_of_mem_dkeys {V : Type} {d : List (String × V)} {a : String}
    (h : a ∈ dkeys d) : ∃ v, dlookup a d = some v ∧ (a, v) ∈ d := by
  induction d with
  | nil => simp [dkeys] at h
  | cons q d ih =>
    by_cases hq : q.1 = a
    · refine ⟨q.2, ?_, ?_⟩
      · simp [dlookup, hq]
      · rw [show ((a, q.2) : String × V) = q by rw [← hq, Prod.mk.eta]]
        exact List.mem_cons_self q d
    · have ha : a ∈ dkeys d := by
        rcases List.mem_cons.mp h with h' | h'
        · exact absurd h'.symm hq
        · exact h'
      rcases ih ha with ⟨v, hv, hmem⟩
      exact ⟨v, by simp [dlookup, hq, hv], List.mem_cons_of_mem q hmem⟩

/-! ### Helper lemmas: the partition fold of `get_award_details` -/

theorem buildGo_fst_mem (rs : List DetailResult)
    (sd : List (String × Nat)) (ed : List (String × String)) (a : String) :
    a ∈ dkeys (buildGo rs (sd, ed)).1 ↔
      a ∈ dkeys sd ∨ ∃ d, DetailResult.ok a d ∈ rs := by
  induction rs generalizing sd ed with
  | nil => simp [buildGo]
  | cons r rs ih =>
    cases r with
    | ok b d =>
      rw [buildGo, ih]
      constructor
      · rintro (h | ⟨d', hd'⟩)
        · rcases mem_dkeys_dictInsert.mp h with h | rfl
          · exact Or.inl h
          · exact Or.inr ⟨d, List.mem_cons_self _ _⟩
        · exact Or.inr ⟨d', List.mem_cons_of_mem _ hd'⟩
      · rintro (h | ⟨d', hd'⟩)
        · exact Or.inl (mem_dkeys_dictInsert.mpr (Or.inl h))
        · rcases List.mem_cons.mp hd' with heq | hmem
          · rw [DetailResult.ok.injEq] at heq
            exact Or.inl (mem_dkeys_dictInsert.mpr (Or.inr heq.1))
          · exact Or.inr ⟨d', hmem⟩
    | err b e =>
      rw [buildGo, ih]
      constructor
      · rintro (h | ⟨d', hd'⟩)
        · exact Or.inl h
        · exact Or.inr ⟨d', List.mem_cons_of_mem _ hd'⟩
      · rintro (h | ⟨d', hd'⟩)
        · exact Or.inl h
        · rcases List.mem_cons.mp hd' with heq | hmem
          · cases heq
          · exact Or.inr ⟨d', hmem⟩

theorem buildGo_snd_mem (rs : List DetailResult)
    (sd : List (String × Nat)) (ed : List (String × String)) (a : String) :
    a ∈ dkeys (buildGo rs (sd, ed)).2 ↔
      a ∈ dkeys ed ∨ ∃ e, DetailResult.err a e ∈ rs := by
  induction rs generalizing sd ed with
  | nil => simp [buildGo]
  | cons r rs ih =>
    cases r with
    | ok b d =>
      rw [buildGo, ih]
      constructor
      · rintro (h | ⟨e', he'⟩)
        · exact Or.inl h
        · exact Or.inr ⟨e', List.mem_cons_of_mem _ he'⟩
      · rintro (h | ⟨e', he'⟩)
        · exact Or.inl h
        · rcases List.mem_cons.mp he' with heq | hmem
          · cases heq
          · exact Or.inr ⟨e', hmem⟩
    | err b e =>
      rw [buildGo, ih]
      constructor
      · rintro (h | ⟨e', he'⟩)
        · rcases mem_dkeys_dictInsert.mp h with h | rfl
          · exact Or.inl h
          · exact Or.inr ⟨e, List.mem_cons_self _ _⟩
        · exact Or.inr ⟨e', List.mem_cons_of_mem _ he'⟩
      · rintro (h | ⟨e', he'⟩)
        · exact Or.inl (mem_dkeys_dictInsert.mpr (Or.inl h))
        · rcases List.mem_cons.mp he' with heq | hmem
          · rw [DetailResult.err.injEq] at heq
            exact Or.inl (mem_dkeys_dictInsert.mpr (Or.inr heq.1))
          · exact Or.inr ⟨e', hmem⟩

theorem buildGo_fst_nodup (rs : List DetailResult)
    (sd : List (String × Nat)) (ed : List (String × String))
    (h : (dkeys sd).Nodup) : (dkeys (buildGo rs (sd, ed)).1).Nodup := by
  induction rs generalizing sd ed with
  | nil => exact h
  | cons r rs ih =>
    cases r with
    | ok b d => exact ih _ _ (nodup_dkeys_dictInsert b d h)
    | err b e => exact ih _ _ h

theorem buildGo_snd_nodup (rs : List DetailResult)
    (sd : List (String × Nat)) (ed : List (String × String))
    (h : (dkeys ed).Nodup) : (dkeys (buildGo rs (sd, ed)).2).Nodup := by
  induction rs generalizing sd ed with
  | nil => exact h
  | cons r rs ih =>
    cases r with
    | ok b d => exact ih _ _ h
    | err b e => exact ih _ _ (nodup_dkeys_dictInsert b e h)

theorem buildGo_fst_entries (rs : List DetailResult) (net : String → FetchOutcome)
    (sd : List (String × Nat)) (ed : List (String × String))
    (hrs : ∀ a d, DetailResult.ok a d ∈ rs → net a = .success d)
    (hsd : ∀ q ∈ sd, net q.1 = .success q.2) :
    ∀ q ∈ (buildGo rs (sd, ed)).1, net q.1 = .success q.2 := by
  induction rs generalizing sd ed with
  | nil => exact hsd
  | cons r rs ih =>
    cases r with
    | ok b d =>
      refine ih _ _ (fun a d' h => hrs a d' (List.mem_cons_of_mem _ h)) ?_
      intro q hq
      rcases mem_dictInsert hq with h | rfl
      · exact hsd q h
      · exact hrs b d (List.mem_cons_self _ _)
    | err b e =>
      exact ih _ _ (fun a d' h => hrs a d' (List.mem_cons_of_mem _ h)) hsd

theorem buildGo_snd_entries (rs : List DetailResult) (net : String → FetchOutcome)
    (sd : List (String × Nat)) (ed : List (String × String))
    (hrs : ∀ a e, DetailResult.err a e ∈ rs → net a = .failure e)
    (hed : ∀ q ∈ ed, net q.1 = .failure q.2) :
    ∀ q ∈ (buildGo rs (sd, ed)).2, net q.1 = .failure q.2 := by
  induction rs generalizing sd ed with
  | nil => exact hed
  | cons r rs ih =>
    cases r with
    | ok b d =>
      exact ih _ _ (fun a e' h => hrs a e' (List.mem_cons_of_mem _ h)) hed
    | err b e =>
      refine ih _ _ (fun a e' h => hrs a e' (List.mem_cons_of_mem _ h)) ?_
      intro q hq
      rcases mem_dictInsert hq with h | rfl
      · exact hed q h
      · exact hrs b e (List.mem_cons_self _ _)

theorem mem_map_fetch_ok {net : String → FetchOutcome} {ids : List String} {a : String} :
    (∃ d, DetailResult.ok a d ∈ ids.map (fetch_award net)) ↔
      a ∈ ids ∧ (net a).isSuccess = true := by
  constructor
  · rintro ⟨d, hd⟩
    rcases List.mem_map.mp hd with ⟨b, hb, heq⟩
    cases hnb : net b with
    | success x =>
      rw [fetch_award, hnb] at heq
      rw [DetailResult.ok.injEq] at heq
      rcases heq with ⟨rfl, rfl⟩
      exact ⟨hb, by rw [hnb]; rfl⟩
    | failure e =>
      rw [fetch_award, hnb] at heq
      cases heq
  · rintro ⟨ha, hsucc⟩
    cases hna : net a with
    | success x =>
      exact ⟨x, List.mem_map.mpr ⟨a, ha, by rw [fetch_award, hna]⟩⟩
    | failure e =>
      rw [hna] at hsucc
      cases hsucc

theorem mem_map_fetch_err {net : String → FetchOutcome} {ids : List String} {a : String} :
    (∃ e, DetailResult.err a e ∈ ids.map (fetch_award net)) ↔
      a ∈ ids ∧ (net a).isSuccess = false := by
  constructor
  · rintro ⟨e, he⟩
    rcases List.mem_map.mp he with ⟨b, hb, heq⟩
    cases hnb : net b with
    | success x =>
      rw [fetch_award, hnb] at heq
      cases heq
    | failure e' =>
      rw [fetch_award, hnb] at heq
      rw [DetailResult.err.injEq] at heq
      rcases heq with ⟨rfl, rfl⟩
      exact ⟨hb, by rw [hnb]; rfl⟩
  · rintro ⟨ha, hfail⟩
    cases hna : net a with
    | success x =>
      rw [hna] at hfail
      cases hfail
    | failure e =>
      exact ⟨e, List.mem_map.mpr ⟨a, ha, by rw [fetch_award, hna]⟩⟩

theorem map_fetch_ok_sound {net : String → FetchOutcome} {ids : List String} :
    ∀ a d, DetailResult.ok a d ∈ ids.map (fetch_award net) → net a = .success d := by
  intro a d hd
  rcases List.mem_map.mp hd with ⟨b, _, heq⟩
  cases hnb : net b with
  | success x =>
    rw [fetch_award, hnb] at heq
    rw [DetailResult.ok.injEq] at heq
    rcases heq with ⟨rfl, rfl⟩
    exact hnb
  | failure e =>
    rw [fetch_award, hnb] at heq
    cases heq

theorem map_fetch_err_sound {net : String → FetchOutcome} {ids : List String} :
    ∀ a e, DetailResult.err a e ∈ ids.map (fetch_award net) → net a = .failure e := by
  intro a e he
  rcases List.mem_map.mp he with ⟨b, _, heq⟩
  cases hnb : net b with
  | success x =>
    rw [fetch_award, hnb] at heq
    cases heq
  | failure e' =>
    rw [fetch_award, hnb] at heq
    rw [DetailResult.err.injEq] at heq
    rcases heq with ⟨rfl, rfl⟩
    exact hnb

/-- A `Nodup` list of keys with a given membership characterization has the
length of the corresponding filtered `Finset`. -/
theorem length_eq_filter_card {l ids : List String} {p : String → Prop} [DecidablePred p]
    (hnd : l.Nodup) (hmem : ∀ a, a ∈ l ↔ a ∈ ids ∧ p a) :
    l.length = (ids.toFinset.filter p).card := by
  have h1 : l.toFinset = ids.toFinset.filter p := by
    apply Finset.ext
    intro a
    rw [List.mem_toFinset, Finset.mem_filter, List.mem_toFinset]
    exact hmem a
  rw [← List.toFinset_card_of_nodup hnd, h1]

theorem errors_getD (l : List (String × String)) :
    (if l.isEmpty then (none : Option (List (String × String))) else some l).getD [] = l := by
  by_cases h : l.isEmpty
  · rw [if_pos h, Option.getD_none, List.isEmpty_iff.mp h]
  · rw [if_neg h, Option.getD_some]

/-- Summary of the partition built by `get_award_details` from the gathered
task results: key sets, key uniqueness, counts, and lookups. -/
theorem build_response_spec (net : String → FetchOutcome) (ids : List String) :
    (∀ a, a ∈ dkeys (build_response (ids.map (fetch_award net))).1 ↔
        a ∈ ids ∧ (net a).isSuccess = true) ∧
    (∀ a, a ∈ dkeys (build_response (ids.map (fetch_award net))).2 ↔
        a ∈ ids ∧ (net a).isSuccess = false) ∧
    (build_response (ids.map (fetch_award net))).1.length =
      (ids.toFinset.filter (fun a => (net a).isSuccess = true)).card ∧
    (build_response (ids.map (fetch_award net))).2.length =
      (ids.toFinset.filter (fun a => (net a).isSuccess = false)).card ∧
    (∀ a d, a ∈ ids → net a = .success d →
      dlookup a (build_response (ids.map (fetch_award net))).1 = some d) ∧
    (∀ a e, a ∈ ids → net a = .failure e →
      dlookup a (build_response (ids.map (fetch_award net))).2 = some e) := by
  have hmem1 : ∀ a, a ∈ dkeys (build_response (ids.map (fetch_award net))).1 ↔
      a ∈ ids ∧ (net a).isSuccess = true := by
    intro a
    rw [build_response, buildGo_fst_mem]
    simp only [dkeys, List.map_nil, List.not_mem_nil, false_or]
    exact mem_map_fetch_ok
  have hmem2 : ∀ a, a ∈ dkeys (build_response (ids.map (fetch_award net))).2 ↔
      a ∈ ids ∧ (net a).isSuccess = false := by
    intro a
    rw [build_response, buildGo_snd_mem]
    simp only [dkeys, List.map_nil, List.not_mem_nil, false_or]
    exact mem_map_fetch_err
  have hnd1 : (dkeys (build_response (ids.map (fetch_award net))).1).Nodup :=
    buildGo_fst_nodup _ _ _ (by simp [dkeys])
  have hnd2 : (dkeys (build_response (ids.map (fetch_award net))).2).Nodup :=
    buildGo_snd_nodup _ _ _ (by simp [dkeys])
  have hcons1 : ∀ q ∈ (build_response (ids.map (fetch_award net))).1,
      net q.1 = .success q.2 :=
    buildGo_fst_entries _ net _ _ map_fetch_ok_sound (by simp)
  have hcons2 : ∀ q ∈ (build_response (ids.map (fetch_award net))).2,
      net q.1 = .failure q.2 :=
    buildGo_snd_entries _ net _ _ map_fetch_err_sound (by simp)
  refine ⟨hmem1, hmem2, ?_, ?_, ?_, ?_⟩
  · rw [← dkeys_length]
    exact length_eq_filter_card hnd1 hmem1
  · rw [← dkeys_length]
    exact length_eq_filter_card hnd2 hmem2
  · intro a d ha hd
    have hk : a ∈ dkeys (build_response (ids.map (fetch_award net))).1 :=
      (hmem1 a).mpr ⟨ha, by rw [hd]; rfl⟩
    rcases dlookup_mem_of_mem_dkeys hk with ⟨v, hv, hmem⟩
    have := hcons1 _ hmem
    rw [hd] at this
    rw [FetchOutcome.success.injEq] at this
    rw [hv, this]
  · intro a e ha he
    have hk : a ∈ dkeys (build_response (ids.map (fetch_award net))).2 :=
      (hmem2 a).mpr ⟨ha, by rw [he]; rfl⟩
    rcases dlookup_mem_of_mem_dkeys hk with ⟨v, hv, hmem⟩
    have := hcons2 _ hmem
    rw [he] at this
    rw [FetchOutcome.failure.injEq] at this
    rw [hv, this]

/-! ### Helper lemmas: the pagination loop -/

theorem pageLoop_stop_on_error (server : Nat → Except String ApiResponse)
    (pages_to_fetch : Int) (fuel : Nat) (all calls : List Nat) (pf cp : Nat) (e : String)
    (hg : (pf : Int) < pages_to_fetch) (hs : server (cp + 1) = .error e) :
    pageLoop server pages_to_fetch (fuel + 1) all pf cp true calls =
      ⟨all, pf + 1, true, calls ++ [cp + 1]⟩ := by
  rw [pageLoop, if_pos ⟨rfl, hg⟩, hs]

theorem pageLoop_stop_on_empty (server : Nat → Except String ApiResponse)
    (pages_to_fetch : Int) (fuel : Nat) (all calls : List Nat) (pf cp : Nat)
    (r : ApiResponse) (hg : (pf : Int) < pages_to_fetch)
    (hs : server (cp + 1) = .ok r) (hempty : r.results = []) :
    pageLoop server pages_to_fetch (fuel + 1) all pf cp true calls =
      ⟨all, pf + 1, r.page_metadata.hasNext, calls ++ [cp + 1]⟩ := by
  rw [pageLoop, if_pos ⟨rfl, hg⟩, hs]
  dsimp only
  rw [hempty]
  simp

theorem pageLoop_guard_false (server : Nat → Except String ApiResponse)
    (pages_to_fetch : Int) (fuel : Nat) (all calls : List Nat) (pf cp : Nat) (hn : Bool)
    (hg : ¬(hn = true ∧ (pf : Int) < pages_to_fetch)) :
    pageLoop server pages_to_fetch (fuel + 1) all pf cp hn calls =
      ⟨all, pf, hn, calls⟩ := by
  rw [pageLoop, if_neg hg]

theorem pageLoop_step (server : Nat → Except String ApiResponse)
    (pages_to_fetch : Int) (fuel : Nat) (all calls : List Nat) (pf cp : Nat)
    (r : ApiResponse) (hg : (pf : Int) < pages_to_fetch)
    (hs : server (cp + 1) = .ok r) (hne : r.results ≠ []) :
    pageLoop server pages_to_fetch (fuel + 1) all pf cp true calls =
      pageLoop server pages_to_fetch fuel (all ++ r.results) (pf + 1) (cp + 1)
        r.page_metadata.hasNext (calls ++ [cp + 1]) := by
  rw [pageLoop, if_pos ⟨rfl, hg⟩, hs]
  dsimp only
  rw [if_neg (by rw [List.isEmpty_iff]; exact fun h => hne h)]

/-! ### Claims about the paginated search fetcher -/

/-- Claim C8: if the first page call of `search_spending_by_award` raises,
the tool returns the string `"Error searching spending by award: <detail>"`
instead of raising, issues no further calls, and returns no results payload
(the result is the `errorString` branch, not `raw` or `enriched`). -/
theorem C8_first_page_error_string (server : Nat → Except String ApiResponse)
    (startPage : Nat) (pages_to_fetch : Int) (e : String)
    (h : server startPage = .error e) :
    search_spending_by_award server startPage pages_to_fetch =
      (.errorString ("Error searching spending by award: " ++ e), [startPage]) := by
  unfold search_spending_by_award
  rw [h]

/-- Witness for C8 at a concrete always-failing server. -/
theorem C8_first_page_error_string_witness :
    search_spending_by_award failFirstServer 1 3 =
      (.errorString "Error searching spending by award: connection refused", [1]) :=
  C8_first_page_error_string failFirstServer 1 3 "connection refused" rfl

/-- Claim C2: whenever `search_spending_by_award` runs with
`pages_to_fetch > 1` and a successful first page (so it reaches the
metadata-enrichment step), the returned `page_metadata` has
`fetch_completed = true` exactly when the last-read `hasNext` (which is also
stored as `has_more_pages`) is false or `pages_fetched` has reached
`pages_to_fetch`. -/
theorem C2_fetch_completed_iff (server : Nat → Except String ApiResponse)
    (startPage : Nat) (pages_to_fetch : Int) (r : ApiResponse)
    (hgt : 1 < pages_to_fetch) (h : server startPage = .ok r) :
    ∃ m calls,
      search_spending_by_award server startPage pages_to_fetch =
        (.enriched (pageLoop server pages_to_fetch pages_to_fetch.toNat
          r.results 1 startPage r.page_metadata.hasNext [startPage]).all_results m,
         calls) ∧
      m.pages_fetched = (pageLoop server pages_to_fetch pages_to_fetch.toNat
        r.results 1 startPage r.page_metadata.hasNext [startPage]).pages_fetched ∧
      m.has_more_pages = (pageLoop server pages_to_fetch pages_to_fetch.toNat
        r.results 1 startPage r.page_metadata.hasNext [startPage]).has_next ∧
      m.requested_max_pages = pages_to_fetch ∧
      (m.fetch_completed = true ↔
        (m.has_more_pages = false ∨ m.requested_max_pages ≤ (m.pages_fetched : Int))) := by
  set L := pageLoop server pages_to_fetch pages_to_fetch.toNat
    r.results 1 startPage r.page_metadata.hasNext [startPage] with hL
  refine ⟨⟨r.page_metadata.hasNext, L.all_results.length, L.pages_fetched,
    pages_to_fetch, L.has_next,
    !L.has_next || decide (pages_to_fetch ≤ (L.pages_fetched : Int))⟩,
    L.calls, ?_, rfl, rfl, rfl, ?_⟩
  · unfold search_spending_by_award
    rw [h]
    dsimp only
    rw [if_neg (show ¬pages_to_fetch ≤ 1 by omega), ← hL]
  · simp [Bool.or_eq_true, Bool.not_eq_true', decide_eq_true_iff]

theorem pageLoop_guard_false_any (server : Nat → Except String ApiResponse)
    (pages_to_fetch : Int) (fuel : Nat) (all calls : List Nat) (pf cp : Nat) (hn : Bool)
    (hg : ¬(hn = true ∧ (pf : Int) < pages_to_fetch)) :
    pageLoop server pages_to_fetch fuel all pf cp hn calls = ⟨all, pf, hn, calls⟩ := by
  cases fuel with
  | zero => rfl
  | succ k => rw [pageLoop, if_neg hg]

/-- Witness for C2 at a concrete server, `pages_to_fetch = 3`. -/
theorem C2_fetch_completed_iff_witness :
    ∃ m calls,
      search_spending_by_award alwaysMoreServer 1 3 =
        (.enriched (pageLoop alwaysMoreServer 3 3 [0] 1 1 true [1]).all_results m,
         calls) ∧
      m.pages_fetched = (pageLoop alwaysMoreServer 3 3 [0] 1 1 true [1]).pages_fetched ∧
      m.has_more_pages = (pageLoop alwaysMoreServer 3 3 [0] 1 1 true [1]).has_next ∧
      m.requested_max_pages = 3 ∧
      (m.fetch_completed = true ↔
        (m.has_more_pages = false ∨ m.requested_max_pages ≤ (m.pages_fetched : Int))) :=
  C2_fetch_completed_iff alwaysMoreServer 1 3 ⟨[0], ⟨true⟩⟩ (by norm_num) rfl

/-- Claim C5: a successful page call that returns zero results terminates the
aggregation loop immediately — the loop issues that one call and no further
ones — even when that page reports `hasNext = true` and the page budget is
not exhausted.  Stated for an arbitrary loop state (covering any subsequent
page), and for `search_spending_by_award` as a whole when it is the second
page that comes back empty. -/
theorem C5_empty_page_convergence_guard :
    (∀ (server : Nat → Except String ApiResponse) (pages_to_fetch : Int) (fuel : Nat)
        (all calls : List Nat) (pf cp : Nat) (r : ApiResponse),
        (pf : Int) < pages_to_fetch → server (cp + 1) = .ok r → r.results = [] →
        r.page_metadata.hasNext = true →
        pageLoop server pages_to_fetch (fuel + 1) all pf cp true calls =
          ⟨all, pf + 1, true, calls ++ [cp + 1]⟩) ∧
    (∀ (server : Nat → Except String ApiResponse) (pages_to_fetch : Int) (sp : Nat)
        (r1 r2 : ApiResponse),
        server sp = .ok r1 → r1.page_metadata.hasNext = true →
        server (sp + 1) = .ok r2 → r2.results = [] → r2.page_metadata.hasNext = true →
        2 < pages_to_fetch →
        (search_spending_by_award server sp pages_to_fetch).2 = [sp, sp + 1]) := by
  constructor
  · intro server pages_to_fetch fuel all calls pf cp r hg hs hempty hnext
    rw [pageLoop_stop_on_empty server pages_to_fetch fuel all calls pf cp r hg hs hempty,
      hnext]
  · intro server pages_to_fetch sp r1 r2 h1 hhn h2 hempty hnext hgt
    obtain ⟨k, hk⟩ : ∃ k, pages_to_fetch.toNat = k + 1 :=
      ⟨pages_to_fetch.toNat - 1, by omega⟩
    unfold search_spending_by_award
    rw [h1]
    dsimp only
    rw [if_neg (show ¬pages_to_fetch ≤ 1 by omega), hhn, hk,
      pageLoop_stop_on_empty server pages_to_fetch k r1.results [sp] 1 sp r2
        (by omega) h2 hempty]
    rfl

/-- Witness for C5 at a concrete server whose page 2 is empty with
`hasNext = true` and budget 5. -/
theorem C5_empty_page_convergence_guard_witness :
    (search_spending_by_award emptyPage2Server 1 5).2 = [1, 2] :=
  C5_empty_page_convergence_guard.2 emptyPage2Server 5 1 ⟨[7], ⟨true⟩⟩ ⟨[], ⟨true⟩⟩
    rfl rfl rfl rfl rfl (by norm_num)

/-- Counterexample to claim C1 as stated: with a first page carrying two
results and `hasNext = true`, a second-page transport error and budget 3, the
fetcher does return only the page-1 results without raising, but the
enriched `pages_fetched` is 2, not 1 — the counter is incremented before the
call is attempted, so the failed attempt is counted. -/
theorem C1_counterexample_pages_fetched_two :
    ((search_spending_by_award failAtTwoServer 1 3).1.enrichedMeta.map
      EnrichedMetadata.pages_fetched) = some 2 ∧
    ((search_spending_by_award failAtTwoServer 1 3).1.enrichedMeta.map
      EnrichedMetadata.pages_fetched) ≠ some 1 ∧
    (search_spending_by_award failAtTwoServer 1 3).1.enrichedResults =
      some [10, 20] := by
  refine ⟨rfl, ?_, rfl⟩
  decide

/-- Claim C1 amended: when the first page succeeds with `hasNext = true`, the
second page call raises and `pages_to_fetch > 1`, the fetcher swallows the
exception and returns the page-1 results as an enriched response whose
`pages_fetched` is 2 (it counts the failed attempt, since the counter is
incremented before the call) with `has_more_pages = true`. -/
theorem C1_amended_second_page_error_partial_result
    (server : Nat → Except String ApiResponse) (sp : Nat) (pages_to_fetch : Int)
    (r : ApiResponse) (e : String)
    (h1 : server sp = .ok r) (hhn : r.page_metadata.hasNext = true)
    (h2 : server (sp + 1) = .error e) (hgt : 1 < pages_to_fetch) :
    ∃ m, search_spending_by_award server sp pages_to_fetch =
        (.enriched r.results m, [sp, sp + 1]) ∧
      m.pages_fetched = 2 ∧ m.has_more_pages = true ∧
      m.total_results_fetched = r.results.length := by
  obtain ⟨k, hk⟩ : ∃ k, pages_to_fetch.toNat = k + 1 :=
    ⟨pages_to_fetch.toNat - 1, by omega⟩
  refine ⟨⟨true, r.results.length, 2, pages_to_fetch, true,
    decide (pages_to_fetch ≤ ((2 : Nat) : Int))⟩, ?_, rfl, rfl, rfl⟩
  unfold search_spending_by_award
  rw [h1]
  dsimp only
  rw [if_neg (show ¬pages_to_fetch ≤ 1 by omega), hhn, hk,
    pageLoop_stop_on_error server pages_to_fetch k r.results [sp] 1 sp e
      (by omega) h2]
  rfl

/-- Witness for the amended C1 at a concrete server. -/
theorem C1_amended_witness :
    ∃ m, search_spending_by_award failAtTwoServer 1 3 =
        (.enriched [10, 20] m, [1, 2]) ∧
      m.pages_fetched = 2 ∧ m.has_more_pages = true ∧
      m.total_results_fetched = 2 :=
  C1_amended_second_page_error_partial_result failAtTwoServer 1 3 ⟨[10, 20], ⟨true⟩⟩
    "boom" rfl rfl rfl (by norm_num)

/-- Counterexample to claim C3 as stated: with `pages_to_fetch = 2` against a
server that always reports `hasNext = true` with non-empty results, the
fetcher does issue exactly 2 calls and sets `has_more_pages = true`, but
`fetch_completed` is `true` (the page budget was reached), not `false` as the
claim asserts. -/
theorem C3_counterexample_budget_reached_sets_fetch_completed :
    (search_spending_by_award alwaysMoreServer 1 2).2.length = 2 ∧
    ((search_spending_by_award alwaysMoreServer 1 2).1.enrichedMeta.map
      EnrichedMetadata.has_more_pages) = some true ∧
    ((search_spending_by_award alwaysMoreServer 1 2).1.enrichedMeta.map
      EnrichedMetadata.fetch_completed) = some true ∧
    ((search_spending_by_award alwaysMoreServer 1 2).1.enrichedMeta.map
      EnrichedMetadata.fetch_completed) ≠ some false := by
  refine ⟨rfl, rfl, rfl, ?_⟩
  decide

/-- Claim C3 amended: with `pages_to_fetch = 2` against any server that
always reports `hasNext = true` with non-empty results, the fetcher issues
exactly 2 calls (pages `sp` and `sp + 1`) and the enriched metadata has
`has_more_pages = true`, `pages_fetched = 2` and `fetch_completed = true`
(true because the page budget was reached, by line 142's
`not has_next or pages_fetched >= pages_to_fetch`). -/
theorem C3_amended_two_pages_budget (server : Nat → Except String ApiResponse)
    (sp : Nat) (h : ∀ p, ∃ rs, rs ≠ [] ∧ server p = .ok ⟨rs, ⟨true⟩⟩) :
    (search_spending_by_award server sp 2).2 = [sp, sp + 1] ∧
    ∃ m, (search_spending_by_award server sp 2).1.enrichedMeta = some m ∧
      m.has_more_pages = true ∧ m.fetch_completed = true ∧ m.pages_fetched = 2 := by
  obtain ⟨rs1, h1ne, h1⟩ := h sp
  obtain ⟨rs2, h2ne, h2⟩ := h (sp + 1)
  have hloop : pageLoop server 2 (1 + 1) rs1 1 sp true [sp] =
      ⟨rs1 ++ rs2, 2, true, [sp] ++ [sp + 1]⟩ := by
    rw [pageLoop_step server 2 1 rs1 [sp] 1 sp ⟨rs2, ⟨true⟩⟩ (by norm_num) h2 h2ne,
      pageLoop_guard_false_any server 2 1 (rs1 ++ rs2) ([sp] ++ [sp + 1]) 2 (sp + 1)
        true (by norm_num)]
  have hsearch : search_spending_by_award server sp 2 =
      (.enriched (rs1 ++ rs2)
        ⟨true, (rs1 ++ rs2).length, 2, 2, true, true⟩, [sp] ++ [sp + 1]) := by
    unfold search_spending_by_award
    rw [h1]
    dsimp only
    rw [if_neg (by norm_num), show ((2 : Int).toNat) = 1 + 1 from rfl, hloop]
    rfl
  rw [hsearch]
  exact ⟨rfl, ⟨true, (rs1 ++ rs2).length, 2, 2, true, true⟩, rfl, rfl, rfl, rfl⟩

/-- Witness for the amended C3 at a concrete always-more server. -/
theorem C3_amended_two_pages_budget_witness :
    (search_spending_by_award alwaysMoreServer 1 2).2 = [1, 1 + 1] ∧
    ∃ m, (search_spending_by_award alwaysMoreServer 1 2).1.enrichedMeta = some m ∧
      m.has_more_pages = true ∧ m.fetch_completed = true ∧ m.pages_fetched = 2 :=
  C3_amended_two_pages_budget alwaysMoreServer 1 (fun _ => ⟨[0], by decide, rfl⟩)

/-! ### Claims about the page-request derivation and the models -/

/-- Counterexample to claim C4 as stated: deriving the page-2 request from a
concrete request via `model_copy()` + `pagination.page = 2` changes the
original request's `pagination.page` from 1 to 2, because the shallow copy
shares the `BasePagination` object — the claim's "never changes any field of
the original" is false. -/
theorem C4_counterexample_shallow_copy_aliasing :
    (((next_page_request heapEx requestEx 2).2) requestEx.pagination).page = 2 ∧
    (heapEx requestEx.pagination).page = 1 ∧
    (((next_page_request heapEx requestEx 2).2) requestEx.pagination).page ≠
      (heapEx requestEx.pagination).page := by
  refine ⟨rfl, rfl, ?_⟩
  decide

/-- Claim C4 amended: the derived page-N+1 request serializes (under the
post-assignment heap) to exactly the original's serialization with
`pagination.page` replaced by the new page number — all other dumped fields
are structurally identical — but the derived request is the same object
graph as the original (`model_copy()` is shallow), so the page assignment is
also visible through the original request's shared pagination object. -/
theorem C4_amended_dump_differs_only_in_page (h : PagHeap)
    (r : AwardSearchRequestRef) (n : Int) :
    (next_page_request h r n).1 = r ∧
    model_dump (next_page_request h r n).2 (next_page_request h r n).1 =
      { model_dump h r with page := n } ∧
    ((next_page_request h r n).2 r.pagination).page = n := by
  refine ⟨rfl, ?_, ?_⟩
  · unfold model_dump next_page_request setPaginationPage model_copy
    simp
  · unfold next_page_request setPaginationPage model_copy
    simp

/-- Claim C6: the initial value of the semaphore gating the detail fan-out is
`min(max_concurrent, 10, len(award_ids))`; in particular 10 for 15 ids with
`max_concurrent = 20`, and 3 for 3 ids with `max_concurrent = 10`. -/
theorem C6_effective_concurrency_min :
    (∀ (net : String → FetchOutcome) (award_ids : List String) (mc : Int),
        award_ids ≠ [] →
        (get_award_details net award_ids mc).2 =
          some (min (min mc 10) (award_ids.length : Int))) ∧
    (get_award_details netAllOk ids15 20).2 = some 10 ∧
    (get_award_details netAllOk ids3 10).2 = some 3 := by
  refine ⟨?_, by decide, by decide⟩
  intro net award_ids mc hne
  unfold get_award_details
  rw [if_neg (by rw [List.isEmpty_iff]; exact hne)]

/-- Witness for C6 at concrete inputs. -/
theorem C6_effective_concurrency_min_witness :
    (get_award_details netOneBad ids3 5).2 = some (min (min 5 10) ((ids3.length : Nat) : Int)) :=
  C6_effective_concurrency_min.1 netOneBad ids3 5 (by decide)

/-- Counterexample to claim C9 as stated: the string `"2024-1-1"` is not in
`YYYY-MM-DD` form (month and day are not zero-padded), yet
`TimePeriod(start_date="2024-1-1", end_date="2024-01-02")` validates
successfully, because `strptime`'s `%m` and `%d` accept one-digit fields. -/
theorem C9_counterexample_unpadded_date_accepted :
    exceptOk (TimePeriod.make "2024-1-1" "2024-01-02") = true ∧
    isStrictYYYYMMDD "2024-1-1" = false := by
  exact ⟨by decide, by decide⟩

/-- Claim C9 amended: `TimePeriod` construction succeeds exactly for pairs of
strings accepted by `strptime("%Y-%m-%d")` (four-digit year ≥ 1, one- or
two-digit month and day forming a valid calendar date — zero padding is NOT
required, so some strings outside strict `YYYY-MM-DD` shape are accepted)
whose parsed dates satisfy `start_date ≤ end_date`:
(1) every constructed `TimePeriod` stores strings parsing to dates with
start ≤ end; (2) parsed `start > end` fails validation; (3)-(4) a string
rejected by `strptime` fails validation; (5) the non-padded `"2024-1-1"` is
nevertheless accepted. -/
theorem C9_amended_validation_characterization :
    (∀ s e tp, TimePeriod.make s e = .ok tp →
      tp.start_date = s ∧ tp.end_date = e ∧
      ∃ a b, strptimeYMD s = some a ∧ strptimeYMD e = some b ∧ ymdLt b a = false) ∧
    (∀ s e a b, strptimeYMD s = some a → strptimeYMD e = some b → ymdLt b a = true →
      exceptOk (TimePeriod.make s e) = false) ∧
    (∀ s e, strptimeYMD s = none → exceptOk (TimePeriod.make s e) = false) ∧
    (∀ s e, strptimeYMD e = none → exceptOk (TimePeriod.make s e) = false) ∧
    exceptOk (TimePeriod.make "2024-1-1" "2024-01-02") = true := by
  refine ⟨?_, ?_, ?_, ?_, by decide⟩
  · intro s e tp hok
    unfold TimePeriod.make at hok
    by_cases hs : strptimeYMD s = none
    · rw [if_pos (Or.inl (by simp [validate_date_format, hs]))] at hok
      cases hok
    · by_cases he : strptimeYMD e = none
      · rw [if_pos (Or.inr (by simp [validate_date_format, he]))] at hok
        cases hok
      · obtain ⟨a, ha⟩ := Option.ne_none_iff_exists'.mp hs
        obtain ⟨b, hb⟩ := Option.ne_none_iff_exists'.mp he
        rw [if_neg (by simp [validate_date_format, ha, hb]), ha, hb] at hok
        have hok' : (if ymdLt b a = true then
            (Except.error "start_date must be before end_date" : Except String TimePeriod)
          else Except.ok ⟨s, e⟩) = Except.ok tp := hok
        by_cases hlt : ymdLt b a = true
        · rw [if_pos hlt] at hok'
          cases hok'
        · rw [if_neg hlt] at hok'
          rw [Except.ok.injEq] at hok'
          subst hok'
          exact ⟨rfl, rfl, a, b, ha, hb, by simpa using hlt⟩
  · intro s e a b ha hb hlt
    unfold TimePeriod.make
    rw [if_neg (by simp [validate_date_format, ha, hb]), ha, hb]
    show exceptOk (if ymdLt b a = true then
        (Except.error "start_date must be before end_date" : Except String TimePeriod)
      else Except.ok ⟨s, e⟩) = false
    rw [if_pos hlt]
    rfl
  · intro s e hs
    unfold TimePeriod.make
    rw [if_pos (Or.inl (by simp [validate_date_format, hs]))]
    rfl
  · intro s e he
    unfold TimePeriod.make
    rw [if_pos (Or.inr (by simp [validate_date_format, he]))]
    rfl

/-- Witness for the amended C9: an inverted range is rejected. -/
theorem C9_amended_validation_characterization_witness :
    exceptOk (TimePeriod.make "2024-01-03" "2024-01-02") = false :=
  C9_amended_validation_characterization.2.1 "2024-01-03" "2024-01-02"
    (2024, 1, 3) (2024, 1, 2) (by decide) (by decide) (by decide)

theorem errors_ne_none (l : List (String × String)) :
    (if l.isEmpty then (none : Option (List (String × String))) else some l) ≠ none ↔
      0 < l.length := by
  by_cases h : l.isEmpty
  · rw [if_pos h]
    simp [List.isEmpty_iff.mp h]
  · rw [if_neg h]
    simp only [ne_eq, reduceCtorEq, not_false_eq_true, true_iff, List.length_pos]
    exact fun hn => h (List.isEmpty_iff.mpr hn)

/-- Claim C7: for every `get_award_details` call whose per-identifier fetches
complete (the hypothesis `1 ≤ max_concurrent` excludes a zero-capacity
semaphore, on which no fetch would ever complete), the returned object has
`success_count` = the number of (distinct) succeeding identifiers,
`error_count` = the number of (distinct) failing identifiers, `results`
mapping exactly the succeeding identifiers to their payloads, `errors`
mapping exactly the failing identifiers to their error messages, and the
`errors` key is present iff `error_count > 0`. -/
theorem C7_success_failure_partition (net : String → FetchOutcome)
    (award_ids : List String) (max_concurrent : Int)
    (_hmc : 1 ≤ max_concurrent) (hne : award_ids ≠ []) :
    ∃ resp, (get_award_details net award_ids max_concurrent).1 = .response resp ∧
      resp.success_count =
        (award_ids.toFinset.filter (fun a => (net a).isSuccess = true)).card ∧
      resp.error_count =
        (award_ids.toFinset.filter (fun a => (net a).isSuccess = false)).card ∧
      (∀ a, a ∈ dkeys resp.results ↔ a ∈ award_ids ∧ (net a).isSuccess = true) ∧
      (∀ a d, a ∈ award_ids → net a = .success d → dlookup a resp.results = some d) ∧
      (∀ a, a ∈ dkeys (resp.errors.getD []) ↔
        a ∈ award_ids ∧ (net a).isSuccess = false) ∧
      (∀ a e, a ∈ award_ids → net a = .failure e →
        dlookup a (resp.errors.getD []) = some e) ∧
      (resp.errors ≠ none ↔ 0 < resp.error_count) := by
  obtain ⟨hmem1, hmem2, hlen1, hlen2, hlook1, hlook2⟩ := build_response_spec net award_ids
  have hcall : (get_award_details net award_ids max_concurrent).1 =
      .response
        { success_count := (build_response (award_ids.map (fetch_award net))).1.length
          error_count := (build_response (award_ids.map (fetch_award net))).2.length
          results := (build_response (award_ids.map (fetch_award net))).1
          errors := if (build_response (award_ids.map (fetch_award net))).2.isEmpty
            then none else some (build_response (award_ids.map (fetch_award net))).2 } := by
    unfold get_award_details
    rw [if_neg (by rw [List.isEmpty_iff]; exact hne)]
  refine ⟨_, hcall, hlen1, hlen2, hmem1, hlook1, ?_, ?_, ?_⟩
  · intro a
    rw [errors_getD]
    exact hmem2 a
  · intro a e ha he
    rw [errors_getD]
    exact hlook2 a e ha he
  · exact errors_ne_none _

/-- Witness for C7 at a concrete network where `"b"` fails. -/
theorem C7_success_failure_partition_witness :
    ∃ resp, (get_award_details netOneBad ids3 10).1 = .response resp ∧
      resp.success_count =
        (ids3.toFinset.filter (fun a => (netOneBad a).isSuccess = true)).card ∧
      resp.error_count =
        (ids3.toFinset.filter (fun a => (netOneBad a).isSuccess = false)).card ∧
      (∀ a, a ∈ dkeys resp.results ↔ a ∈ ids3 ∧ (netOneBad a).isSuccess = true) ∧
      (∀ a d, a ∈ ids3 → netOneBad a = .success d → dlookup a resp.results = some d) ∧
      (∀ a, a ∈ dkeys (resp.errors.getD []) ↔
        a ∈ ids3 ∧ (netOneBad a).isSuccess = false) ∧
      (∀ a e, a ∈ ids3 → netOneBad a = .failure e →
        dlookup a (resp.errors.getD []) = some e) ∧
      (resp.errors ≠ none ↔ 0 < resp.error_count) :=
  C7_success_failure_partition netOneBad ids3 10 (by norm_num) (by decide)

theorem get_award_details_response_eq (net : String → FetchOutcome)
    (award_ids : List String) (mc : Int) (hne : award_ids ≠ []) :
    (get_award_details net award_ids mc).1 =
      .response
        { success_count := (build_response (award_ids.map (fetch_award net))).1.length
          error_count := (build_response (award_ids.map (fetch_award net))).2.length
          results := (build_response (award_ids.map (fetch_award net))).1
          errors := if (build_response (award_ids.map (fetch_award net))).2.isEmpty
            then none else some (build_response (award_ids.map (fetch_award net))).2 } := by
  unfold get_award_details
  rw [if_neg (by rw [List.isEmpty_iff]; exact hne)]

/-- Claim C10: with pairwise-distinct identifiers,
`success_count + error_count` equals the number of identifiers and every
identifier lands in exactly one of the two maps; with duplicate identifiers
the duplicates collapse into one map key, so the sum can be strictly smaller
than the list length (second conjunct: a concrete two-element list with a
repeated id yields `success_count + error_count = 1 < 2`). -/
theorem C10_distinct_ids_partition_counts :
    (∀ (net : String → FetchOutcome) (ids : List String) (mc : Int),
        1 ≤ mc → ids ≠ [] → ids.Nodup →
        ∃ resp, (get_award_details net ids mc).1 = .response resp ∧
          resp.success_count + resp.error_count = ids.length ∧
          (∀ a ∈ ids,
            (a ∈ dkeys resp.results ∧ a ∉ dkeys (resp.errors.getD [])) ∨
            (a ∉ dkeys resp.results ∧ a ∈ dkeys (resp.errors.getD [])))) ∧
    (∃ resp, (get_award_details netAllOk idsDup 10).1 = .response resp ∧
      resp.success_count + resp.error_count = 1 ∧ idsDup.length = 2) := by
  constructor
  · intro net ids mc _hmc hne hnd
    obtain ⟨hmem1, hmem2, hlen1, hlen2, -, -⟩ := build_response_spec net ids
    refine ⟨_, get_award_details_response_eq net ids mc hne, ?_, ?_⟩
    · have hsplit := Finset.filter_card_add_filter_neg_card_eq_card
        (s := ids.toFinset) (p := fun a => (net a).isSuccess = true)
      have hcongr : ids.toFinset.filter (fun a => (net a).isSuccess = false) =
          ids.toFinset.filter (fun a => ¬((net a).isSuccess = true)) := by
        apply Finset.filter_congr
        intro a _
        cases hb : (net a).isSuccess <;> simp [hb]
      rw [hlen1, hlen2, hcongr, hsplit, List.toFinset_card_of_nodup hnd]
    · intro a ha
      cases hsucc : (net a).isSuccess with
      | true =>
        refine Or.inl ⟨(hmem1 a).mpr ⟨ha, hsucc⟩, fun hin => ?_⟩
        rw [errors_getD] at hin
        have h2 := ((hmem2 a).mp hin).2
        rw [hsucc] at h2
        cases h2
      | false =>
        refine Or.inr ⟨fun hin => ?_, ?_⟩
        · have h1 := ((hmem1 a).mp hin).2
          rw [hsucc] at h1
          cases h1
        · rw [errors_getD]
          exact (hmem2 a).mpr ⟨ha, hsucc⟩
  · exact ⟨⟨1, 0, [("a", 7)], none⟩, by decide, by decide, by decide⟩

/-- Witness for the distinct-identifier part of C10 at concrete inputs. -/
theorem C10_distinct_ids_partition_counts_witness :
    ∃ resp, (get_award_details netOneBad ids3 10).1 = .response resp ∧
      resp.success_count + resp.error_count = ids3.length ∧
      (∀ a ∈ ids3,
        (a ∈ dkeys resp.results ∧ a ∉ dkeys (resp.errors.getD [])) ∨
        (a ∉ dkeys resp.results ∧ a ∈ dkeys (resp.errors.getD []))) :=
  C10_distinct_ids_partition_counts.1 netOneBad ids3 10 (by norm_num) (by decide)
    (by decide)
